import Mathlib

/-!
Verification of the IDLark semantic object model: the IDL type algebra
(idl_types.py), the definition containers and their member entities
(idl_definitions.py), and the relevant tree-to-model reductions (idlark.py).

Python values are shallowly embedded: classes become inductives or
structures, methods become functions, a `raise` becomes `Except.error`
carrying the source's message, and object identity (where a claim depends
on aliasing) is tracked through explicit `objId : Nat` fields, with `copy`
receiving the identity of the freshly allocated object as an argument.
-/

namespace Idlark

/-- TYPE_NAMES (idl_types.py): display names for IDL base type strings. -/
def TYPE_NAMES : List (String × String) := [
  ("any", "Any"),
  ("boolean", "Boolean"),
  ("byte", "Byte"),
  ("octet", "Octet"),
  ("short", "Short"),
  ("unsigned short", "UnsignedShort"),
  ("long", "Long"),
  ("unsigned long", "UnsignedLong"),
  ("long long", "LongLong"),
  ("unsigned long long", "UnsignedLongLong"),
  ("float", "Float"),
  ("unrestricted float", "UnrestrictedFloat"),
  ("double", "Double"),
  ("unrestricted double", "UnrestrictedDouble"),
  ("DOMString", "String"),
  ("ByteString", "ByteString"),
  ("USVString", "USVString"),
  ("object", "Object")]

/-- The closed set of type values of idl_types.py: `base` is IdlType,
`promise` IdlPromiseType (its member_types list is the singleton of the
nested type), `union` IdlUnionType, `sequence` IdlSequenceType,
`frozenArray` IdlFrozenArrayType, `observableArray` IdlObservableArrayType,
`record` IdlRecordType, `nullable` IdlNullableType and `annotated`
IdlAnnotatedType (its extended_attributes dict as a key-value list). -/
inductive IdlTypeBase where
  | base (base_type : String)
  | promise (nested_type : IdlTypeBase)
  | union (member_types : List IdlTypeBase)
  | sequence (element_type : IdlTypeBase)
  | frozenArray (element_type : IdlTypeBase)
  | observableArray (element_type : IdlTypeBase)
  | record (key_type value_type : IdlTypeBase)
  | nullable (nested_type : IdlTypeBase)
  | annotated (nested_type : IdlTypeBase) (extended_attributes : List (String × String))

/-- IdlType.__init__: `'unrestricted %s' % base_type` when is_unrestricted. -/
def mkIdlType (base_type : String) (is_unrestricted : Bool) : IdlTypeBase :=
  .base (if is_unrestricted then "unrestricted " ++ base_type else base_type)

mutual

/-- The `name` property of each variant. IdlType looks its base_type up in
TYPE_NAMES (defaulting to the base_type itself); composite variants build
`Ctor(child names, comma separated)`; IdlNullableType and IdlAnnotatedType
return the nested type's name unchanged. -/
def IdlTypeBase.name : IdlTypeBase → String
  | .base base_type => ((TYPE_NAMES.lookup base_type).getD base_type)
  | .promise nested_type => "Promise(" ++ nested_type.name ++ ")"
  | .union member_types => "Union(" ++ String.intercalate ", " (nameList member_types) ++ ")"
  | .sequence element_type => "Sequence(" ++ element_type.name ++ ")"
  | .frozenArray element_type => "FrozenArray(" ++ element_type.name ++ ")"
  | .observableArray element_type => "ObservableArray(" ++ element_type.name ++ ")"
  | .record key_type value_type =>
      "Record(" ++ key_type.name ++ ", " ++ value_type.name ++ ")"
  | .nullable nested_type => nested_type.name
  | .annotated nested_type _ => nested_type.name

/-- `member_type.name for member_type in member_types`. -/
def nameList : List IdlTypeBase → List String
  | [] => []
  | t :: ts => t.name :: nameList ts

end

theorem nameList_eq_map (ts : List IdlTypeBase) : nameList ts = ts.map IdlTypeBase.name := by
  induction ts with
  | nil => rfl
  | cons t ts ih => simp [nameList, ih]

/-- Python dict equality for the extended_attributes of an annotated type:
same keys mapped to the same values (order irrelevant, keys unique). -/
def dictBeq (d1 d2 : List (String × String)) : Bool :=
  d1.all (fun kv => d2.lookup kv.1 == some kv.2)
    && d2.all (fun kv => d1.lookup kv.1 == some kv.2)

/-- `t == u` between type values. Every variant's __eq__ first checks
isinstance against its own class and returns False on mismatch; on a match,
IdlType compares base_type, IdlPromiseType / IdlUnionType /
IdlSequenceType / IdlFrozenArrayType / IdlObservableArrayType compare
canonical names, IdlRecordType compares key and value, IdlNullableType
compares nested types, IdlAnnotatedType compares nested type and its
extended-attribute dict. -/
def pyEq : IdlTypeBase → IdlTypeBase → Bool
  | .base b1, .base b2 => b1 == b2
  | .promise a, .promise b => (IdlTypeBase.promise a).name == (IdlTypeBase.promise b).name
  | .union ms1, .union ms2 => (IdlTypeBase.union ms1).name == (IdlTypeBase.union ms2).name
  | .sequence a, .sequence b => (IdlTypeBase.sequence a).name == (IdlTypeBase.sequence b).name
  | .frozenArray a, .frozenArray b =>
      (IdlTypeBase.frozenArray a).name == (IdlTypeBase.frozenArray b).name
  | .observableArray a, .observableArray b =>
      (IdlTypeBase.observableArray a).name == (IdlTypeBase.observableArray b).name
  | .record k1 v1, .record k2 v2 => pyEq k1 k2 && pyEq v1 v2
  | .nullable a, .nullable b => pyEq a b
  | .annotated a e1, .annotated b e2 => pyEq a b && dictBeq e1 e2
  | _, _ => false

mutual

/-- IdlUnionType.number_of_nullable_member_types: counts direct nullable
members, recursing into union members and into a union sitting directly
under a nullable member (the loop body is split off as
`memberNullableCount`). -/
def numberOfNullableMemberTypes : List IdlTypeBase → Nat
  | [] => 0
  | m :: ms => memberNullableCount m + numberOfNullableMemberTypes ms

/-- One iteration of the number_of_nullable_member_types loop: a nullable
member counts 1 (plus, when its nested type is a union, that union's own
count); a union member contributes its own count; anything else 0. -/
def memberNullableCount : IdlTypeBase → Nat
  | .nullable (.union ms2) => 1 + numberOfNullableMemberTypes ms2
  | .nullable _ => 1
  | .union ms2 => numberOfNullableMemberTypes ms2
  | _ => 0

end

/-- IdlNullableType.__init__: the constraint checks, in source order; each
`raise ValueError(msg)` becomes `Except.error msg`. -/
def mkNullable (nested_type : IdlTypeBase) : Except String IdlTypeBase :=
  if nested_type.name = "Any" then
    .error "Inner type of nullable type must not be any."
  else match nested_type with
    | .promise _ => .error "Inner type of nullable type must not be a promise."
    | .nullable _ => .error "Inner type of nullable type must not be a nullable type."
    | .union ms =>
        if numberOfNullableMemberTypes ms > 0 then
          .error "Inner type of nullable type must not be a union type that itself includes a nullable type."
        else .ok (.nullable nested_type)
    | _ => .ok (.nullable nested_type)

/-- `list(set(member_types))` of IdlUnionType.__init__: deduplication by
Python equality. CPython's set iteration order is implementation defined;
it is modelled as first-occurrence order (which the subsequent sort by
canonical name makes unobservable in the union's name). -/
def pyDedup : List IdlTypeBase → List IdlTypeBase
  | [] => []
  | x :: xs => x :: (pyDedup xs).filter (fun y => !pyEq x y)

/-- The sort key relation of `self.member_types.sort(key=lambda t: t.name)`. -/
def nameLe (a b : IdlTypeBase) : Prop := a.name ≤ b.name

instance : DecidableRel nameLe := fun a b => inferInstanceAs (Decidable (_ ≤ _))

instance : IsTotal IdlTypeBase nameLe := ⟨fun a b => le_total a.name b.name⟩

instance : IsTrans IdlTypeBase nameLe := ⟨fun _ _ _ => le_trans⟩

/-- IdlUnionType.__init__: deduplicate the member set, then stable-sort it
by canonical name (Python's list.sort is stable; a stable insertion sort
models it). -/
def mkUnion (member_types : List IdlTypeBase) : IdlTypeBase :=
  .union (List.insertionSort nameLe (pyDedup member_types))

/-- The variant (Python class) of a type value, as a tag. -/
def variantTag : IdlTypeBase → Nat
  | .base _ => 0
  | .promise _ => 1
  | .union _ => 2
  | .sequence _ => 3
  | .frozenArray _ => 4
  | .observableArray _ => 5
  | .record _ _ => 6
  | .nullable _ => 7
  | .annotated _ _ => 8

theorem strBeq_comm (x y : String) : (x == y) = (y == x) := by
  cases h1 : x == y <;> cases h2 : y == x <;> simp_all

theorem dictBeq_comm (d1 d2 : List (String × String)) : dictBeq d1 d2 = dictBeq d2 d1 :=
  Bool.and_comm _ _

theorem pyEq_comm (t u : IdlTypeBase) : pyEq t u = pyEq u t := by
  cases t <;> cases u <;> simp [pyEq, strBeq_comm] <;>
    first
      | (rename_i k1 v1 k2 v2; rw [pyEq_comm k1 k2, pyEq_comm v1 v2])
      | (rename_i a e1 b e2; rw [pyEq_comm a b, dictBeq_comm e1 e2])
      | (rename_i a b; exact pyEq_comm a b)

theorem pyDedup_eq_self {l : List IdlTypeBase}
    (h : l.Pairwise (fun a b => pyEq a b = false)) : pyDedup l = l := by
  induction l with
  | nil => rfl
  | cons x xs ih =>
    rw [List.pairwise_cons] at h
    rw [pyDedup, ih h.2, List.filter_eq_self.mpr (fun y hy => by simp [h.1 y hy])]

mutual

/-- The claim's notion of a union (member list) recursively containing a
nullable member, the recursion descending through nested unions. -/
def containsNullableMember : List IdlTypeBase → Bool
  | [] => false
  | m :: ms => memberIsOrContainsNullable m || containsNullableMember ms

/-- A member is a nullable, or a union recursively containing one. -/
def memberIsOrContainsNullable : IdlTypeBase → Bool
  | .nullable _ => true
  | .union ms2 => containsNullableMember ms2
  | _ => false

end

mutual

theorem memberNullable_iff : ∀ m : IdlTypeBase,
    (memberIsOrContainsNullable m = true ↔ 0 < memberNullableCount m)
  | .nullable n => by
      cases n <;> simp [memberIsOrContainsNullable, memberNullableCount]
  | .union ms2 => by
      simpa [memberIsOrContainsNullable, memberNullableCount] using containsNullable_iff ms2
  | .base b => by simp [memberIsOrContainsNullable, memberNullableCount]
  | .promise n => by simp [memberIsOrContainsNullable, memberNullableCount]
  | .sequence e => by simp [memberIsOrContainsNullable, memberNullableCount]
  | .frozenArray e => by simp [memberIsOrContainsNullable, memberNullableCount]
  | .observableArray e => by simp [memberIsOrContainsNullable, memberNullableCount]
  | .record k v => by simp [memberIsOrContainsNullable, memberNullableCount]
  | .annotated n e => by simp [memberIsOrContainsNullable, memberNullableCount]

theorem containsNullable_iff : ∀ ms : List IdlTypeBase,
    (containsNullableMember ms = true ↔ 0 < numberOfNullableMemberTypes ms)
  | [] => by simp [containsNullableMember, numberOfNullableMemberTypes]
  | m :: ms => by
      have h1 := memberNullable_iff m
      have h2 := containsNullable_iff ms
      simp only [containsNullableMember, numberOfNullableMemberTypes, Bool.or_eq_true, h1, h2]
      omega

end

/-- The failure condition stated by the claim for constructing a nullable
type: the inner type is Any (identified, as everywhere in this algebra, by
its canonical name), a promise, a nullable, or a union that recursively
contains a nullable member. -/
def nullableShouldFail (inner : IdlTypeBase) : Bool :=
  inner.name == "Any"
    || (match inner with
        | .promise _ => true
        | .nullable _ => true
        | .union ms => containsNullableMember ms
        | _ => false)

/-- C1 counterexample: the constructed value Nullable(long) and the type
long have the same canonical name ("Long"), yet they are not equal in
either direction — refuting "two type values are equal iff their names are
equal ... e.g. for every type X, Nullable(X) and X are equal exactly when
their names are equal" at X = long. -/
theorem nullable_name_equal_but_not_equal :
    mkNullable (.base "long") = .ok (.nullable (.base "long"))
      ∧ (IdlTypeBase.nullable (.base "long")).name = (IdlTypeBase.base "long").name
      ∧ pyEq (.nullable (.base "long")) (.base "long") = false
      ∧ pyEq (.base "long") (.nullable (.base "long")) = false :=
  ⟨rfl, rfl, rfl, rfl⟩

/-- C1 (amended): equality never holds across variants even when names
coincide (a nullable type's name is its inner type's name); within one
variant, equality is name-driven for promises, unions, sequences, frozen
arrays and observable arrays; base types compare base strings — which can
differ under a shared display name, e.g. base types "any" and "Any" —
nullable types compare nested types, records compare key and value, and
annotated types compare nested type and attribute set. -/
theorem typeEq_characterization :
    (∀ t u : IdlTypeBase, pyEq t u = true → variantTag t = variantTag u)
      ∧ (∀ x : IdlTypeBase, (IdlTypeBase.nullable x).name = x.name)
      ∧ (∀ a b, pyEq (.promise a) (.promise b)
          = ((IdlTypeBase.promise a).name == (IdlTypeBase.promise b).name))
      ∧ (∀ ms1 ms2, pyEq (.union ms1) (.union ms2)
          = ((IdlTypeBase.union ms1).name == (IdlTypeBase.union ms2).name))
      ∧ (∀ a b, pyEq (.sequence a) (.sequence b)
          = ((IdlTypeBase.sequence a).name == (IdlTypeBase.sequence b).name))
      ∧ (∀ a b, pyEq (.frozenArray a) (.frozenArray b)
          = ((IdlTypeBase.frozenArray a).name == (IdlTypeBase.frozenArray b).name))
      ∧ (∀ a b, pyEq (.observableArray a) (.observableArray b)
          = ((IdlTypeBase.observableArray a).name == (IdlTypeBase.observableArray b).name))
      ∧ (∀ b1 b2, pyEq (.base b1) (.base b2) = (b1 == b2))
      ∧ (pyEq (.base "any") (.base "Any") = false
          ∧ (IdlTypeBase.base "any").name = (IdlTypeBase.base "Any").name)
      ∧ (∀ a b, pyEq (.nullable a) (.nullable b) = pyEq a b)
      ∧ (∀ k1 v1 k2 v2, pyEq (.record k1 v1) (.record k2 v2) = (pyEq k1 k2 && pyEq v1 v2))
      ∧ (∀ a e1 b e2, pyEq (.annotated a e1) (.annotated b e2) = (pyEq a b && dictBeq e1 e2)) := by
  refine ⟨fun t u h => ?_, fun x => rfl, fun a b => rfl, fun ms1 ms2 => rfl, fun a b => rfl,
    fun a b => rfl, fun a b => rfl, fun b1 b2 => rfl, ⟨rfl, rfl⟩, fun a b => rfl,
    fun k1 v1 k2 v2 => rfl, fun a e1 b e2 => rfl⟩
  cases t <;> cases u <;> first | rfl | exact absurd h (by simp [pyEq])

theorem typeEq_characterization_witness :
    pyEq (.base "long") (.base "long") = true
      ∧ variantTag (.base "long") = variantTag (.base "long") :=
  ⟨rfl, typeEq_characterization.1 (.base "long") (.base "long") rfl⟩

/-- C2: constructing Nullable(inner) fails exactly when the claim's
condition holds — inner is Any (by canonical name), a promise, a nullable,
or a union recursively containing a nullable member — and otherwise
succeeds with the given inner type stored as the nested type. -/
theorem mkNullable_characterization (inner : IdlTypeBase) :
    (nullableShouldFail inner = false → mkNullable inner = .ok (.nullable inner))
      ∧ (nullableShouldFail inner = true → ∃ msg, mkNullable inner = .error msg) := by
  constructor
  · intro h
    simp only [nullableShouldFail, Bool.or_eq_false_iff, beq_eq_false_iff_ne] at h
    obtain ⟨hname, hmatch⟩ := h
    cases inner with
    | union ms =>
        have hc : ¬ 0 < numberOfNullableMemberTypes ms := fun hp => by
          have := (containsNullable_iff ms).mpr hp
          simp at hmatch
          simp [hmatch] at this
        simp [mkNullable, hname, hc]
    | promise n => simp at hmatch
    | nullable n => simp at hmatch
    | base b => simp [mkNullable, hname]
    | sequence e => simp [mkNullable, hname]
    | frozenArray e => simp [mkNullable, hname]
    | observableArray e => simp [mkNullable, hname]
    | record k v => simp [mkNullable, hname]
    | annotated n e => simp [mkNullable, hname]
  · intro h
    simp only [nullableShouldFail, Bool.or_eq_true, beq_iff_eq] at h
    cases inner with
    | promise n =>
        simp only [mkNullable]
        split
        · exact ⟨_, rfl⟩
        · exact ⟨_, rfl⟩
    | nullable n =>
        simp only [mkNullable]
        split
        · exact ⟨_, rfl⟩
        · exact ⟨_, rfl⟩
    | union ms =>
        simp only [mkNullable]
        split
        · exact ⟨_, rfl⟩
        · rename_i hAny
          have hc : containsNullableMember ms = true := by
            rcases h with h | h
            · exact absurd h hAny
            · simpa using h
          have hpos : 0 < numberOfNullableMemberTypes ms := (containsNullable_iff ms).mp hc
          simp only [gt_iff_lt, hpos, if_true]
          exact ⟨_, rfl⟩
    | base b =>
        have hAny : (IdlTypeBase.base b).name = "Any" := by
          rcases h with h | h
          · exact h
          · simp at h
        simp only [mkNullable, hAny, if_pos]
        exact ⟨_, rfl⟩
    | sequence e =>
        have hAny : (IdlTypeBase.sequence e).name = "Any" := by
          rcases h with h | h
          · exact h
          · simp at h
        simp only [mkNullable, hAny, if_pos]
        exact ⟨_, rfl⟩
    | frozenArray e =>
        have hAny : (IdlTypeBase.frozenArray e).name = "Any" := by
          rcases h with h | h
          · exact h
          · simp at h
        simp only [mkNullable, hAny, if_pos]
        exact ⟨_, rfl⟩
    | observableArray e =>
        have hAny : (IdlTypeBase.observableArray e).name = "Any" := by
          rcases h with h | h
          · exact h
          · simp at h
        simp only [mkNullable, hAny, if_pos]
        exact ⟨_, rfl⟩
    | record k v =>
        have hAny : (IdlTypeBase.record k v).name = "Any" := by
          rcases h with h | h
          · exact h
          · simp at h
        simp only [mkNullable, hAny, if_pos]
        exact ⟨_, rfl⟩
    | annotated n e =>
        have hAny : (IdlTypeBase.annotated n e).name = "Any" := by
          rcases h with h | h
          · exact h
          · simp at h
        simp only [mkNullable, hAny, if_pos]
        exact ⟨_, rfl⟩

theorem mkNullable_characterization_witness :
    nullableShouldFail (.base "long") = false
      ∧ mkNullable (.base "long") = .ok (.nullable (.base "long"))
      ∧ nullableShouldFail (.union [.nullable (.base "long"), .base "DOMString"]) = true
      ∧ ∃ msg, mkNullable (.union [.nullable (.base "long"), .base "DOMString"]) = .error msg :=
  ⟨by decide, (mkNullable_characterization (.base "long")).1 (by decide), by decide,
    (mkNullable_characterization (.union [.nullable (.base "long"), .base "DOMString"])).2
      (by decide)⟩

/-- C3: for a list S of pairwise distinct (by Python equality) type values
and any permutation T of S, Union(T) and Union(S) have the same canonical
name — deduplication leaves a distinct set untouched, and the sort by
canonical name makes the joined member names independent of input order. -/
theorem union_name_order_independent (S T : List IdlTypeBase)
    (hdist : S.Pairwise (fun a b => pyEq a b = false))
    (hperm : T.Perm S) :
    (mkUnion T).name = (mkUnion S).name := by
  have hsymm : ∀ {x y : IdlTypeBase}, pyEq x y = false → pyEq y x = false := by
    intro x y h
    rw [pyEq_comm]
    exact h
  have hdistT : T.Pairwise (fun a b => pyEq a b = false) :=
    (hperm.pairwise_iff fun h => hsymm h).mpr hdist
  have hmap : (List.insertionSort nameLe T).map IdlTypeBase.name
      = (List.insertionSort nameLe S).map IdlTypeBase.name := by
    have hps : ((List.insertionSort nameLe T).map IdlTypeBase.name).Perm
        ((List.insertionSort nameLe S).map IdlTypeBase.name) :=
      (((List.perm_insertionSort nameLe T).trans hperm).trans
        (List.perm_insertionSort nameLe S).symm).map IdlTypeBase.name
    have h1 : List.Sorted (fun s t : String => s ≤ t)
        ((List.insertionSort nameLe T).map IdlTypeBase.name) :=
      List.pairwise_map.mpr (List.sorted_insertionSort nameLe T)
    have h2 : List.Sorted (fun s t : String => s ≤ t)
        ((List.insertionSort nameLe S).map IdlTypeBase.name) :=
      List.pairwise_map.mpr (List.sorted_insertionSort nameLe S)
    exact List.eq_of_perm_of_sorted hps h1 h2
  show (IdlTypeBase.union (List.insertionSort nameLe (pyDedup T))).name
      = (IdlTypeBase.union (List.insertionSort nameLe (pyDedup S))).name
  rw [pyDedup_eq_self hdistT, pyDedup_eq_self hdist, IdlTypeBase.name, IdlTypeBase.name,
    nameList_eq_map, nameList_eq_map, hmap]

theorem union_name_order_independent_witness :
    [IdlTypeBase.base "long", IdlTypeBase.base "boolean"].Pairwise
        (fun a b => pyEq a b = false)
      ∧ [IdlTypeBase.base "boolean", IdlTypeBase.base "long"].Perm
          [IdlTypeBase.base "long", IdlTypeBase.base "boolean"]
      ∧ (mkUnion [IdlTypeBase.base "boolean", IdlTypeBase.base "long"]).name
          = (mkUnion [IdlTypeBase.base "long", IdlTypeBase.base "boolean"]).name :=
  ⟨by decide, List.Perm.swap _ _ _,
    union_name_order_independent _ _ (by decide) (List.Perm.swap _ _ _)⟩

/-! ## Tree-to-model transformer nodes (idlark.py) -/

/-- A reduced child node as seen by a transformer reduction function:
either an IdlTypeBase value produced by an inner reduction, or a labeled
token (lark Token: a terminal label and a value). -/
inductive Node where
  | typ (t : IdlTypeBase)
  | token (ttype : String) (tvalue : String)

/-- WebIDLTransformer.forzen_array_type: scans the children and returns
IdlSequenceType(node) — the Sequence constructor, not the FrozenArray
one — for the first child that is a type value; when no child is a type
value the source returns the raw child tuple, which is not a type value
(modelled as none). -/
def forzen_array_type (nodes : List Node) : Option IdlTypeBase :=
  match nodes with
  | [] => none
  | .typ t :: _ => some (.sequence t)
  | .token _ _ :: rest => forzen_array_type rest

/-- WebIDLTransformer.observable_array_type: the same scan, delegating to
IdlObservableArrayType. -/
def observable_array_type (nodes : List Node) : Option IdlTypeBase :=
  match nodes with
  | [] => none
  | .typ t :: _ => some (.observableArray t)
  | .token _ _ :: rest => observable_array_type rest

/-- C9: reducing a frozen-array CST node with element type long yields the
Sequence variant named "Sequence(Long)" — not the FrozenArray variant,
whose canonical name would be "FrozenArray(Long)" and which compares
unequal to the produced value — while the observable-array reduction does
delegate to its matching constructor. -/
theorem forzen_array_reduces_to_sequence :
    forzen_array_type [Node.token "FROZENARRAY" "FrozenArray", Node.typ (.base "long")]
        = some (.sequence (.base "long"))
      ∧ (IdlTypeBase.sequence (.base "long")).name = "Sequence(Long)"
      ∧ (IdlTypeBase.frozenArray (.base "long")).name = "FrozenArray(Long)"
      ∧ variantTag (.sequence (.base "long")) ≠ variantTag (.frozenArray (.base "long"))
      ∧ pyEq (.sequence (.base "long")) (.frozenArray (.base "long")) = false
      ∧ observable_array_type [Node.token "OBSERVABLEARRAY" "ObservableArray",
          Node.typ (.base "long")] = some (.observableArray (.base "long")) :=
  ⟨rfl, rfl, rfl, by decide, rfl, rfl⟩

/-! ## Extended-attribute store (idl_definitions.py, WithExtendedAttributes) -/

/-- IdlArgument (idl_definitions.py): the fields compared by __eq__ and
copied by __copy__; its own extended-attribute store is omitted (no claim
depends on an argument's attached attributes). -/
structure IdlArgument where
  name : String
  idl_type : IdlTypeBase
  is_optional : Bool
  is_variadic : Bool
  default_value : Option String

/-- Python dict lookup on an association list with unique keys. -/
def assocGet {α : Type} (l : List (String × α)) (k : String) : Option α :=
  (l.find? (fun kv => kv.1 == k)).map (fun kv => kv.2)

/-- Python `d[k] = v`: replace the existing entry in place, else append. -/
def assocSet {α : Type} : List (String × α) → String → α → List (String × α)
  | [], k, v => [(k, v)]
  | kv :: rest, k, v => if kv.1 == k then (k, v) :: rest else kv :: assocSet rest k v

/-- The seven-plus-one typed buckets of WithExtendedAttributes (dicts as
association lists, the identifier set as a duplicate-free list). -/
structure WithExtendedAttributes where
  _identifiers : List String
  _extattr_arguments : List (String × List IdlArgument)
  _named_arguments : List (String × (String × List IdlArgument))
  _identifier_pairs : List (String × String)
  _identifier_lists : List (String × List String)
  _string_literals : List (String × String)
  _string_literal_lists : List (String × List String)
  _numbers : List (String × Int)

/-- WithExtendedAttributes.__init__: all buckets empty. -/
def emptyExtAttrs : WithExtendedAttributes := ⟨[], [], [], [], [], [], [], []⟩

def extattr_add_identifier (s : WithExtendedAttributes) (identifier : String) :
    WithExtendedAttributes :=
  { s with _identifiers :=
      if s._identifiers.contains identifier then s._identifiers
      else s._identifiers ++ [identifier] }

def extattr_has_identifier (s : WithExtendedAttributes) (identifier : String) : Bool :=
  s._identifiers.contains identifier

def extattr_add_arguments (s : WithExtendedAttributes) (identifier : String)
    (arguments : List IdlArgument) : WithExtendedAttributes :=
  { s with _extattr_arguments := assocSet s._extattr_arguments identifier arguments }

def extattr_get_arguments (s : WithExtendedAttributes) (identifier : String) :
    List IdlArgument :=
  (assocGet s._extattr_arguments identifier).getD []

def extattr_add_named_arguments (s : WithExtendedAttributes) (identifier : String)
    (argument_name : String) (arguments : List IdlArgument) : WithExtendedAttributes :=
  { s with _named_arguments :=
      assocSet s._named_arguments identifier (argument_name, arguments) }

/-- WithExtendedAttributes.extattr_get_named_arguments: the source body is
`self._named_arguments.get(identifier)` with no return statement, so the
Python function always returns None, regardless of the store's contents. -/
def extattr_get_named_arguments (_s : WithExtendedAttributes) (_identifier : String) :
    Option (String × List IdlArgument) :=
  none

def extattr_add_identifier_pair (s : WithExtendedAttributes) (key value : String) :
    WithExtendedAttributes :=
  { s with _identifier_pairs := assocSet s._identifier_pairs key value }

def extattr_get_identifier_value (s : WithExtendedAttributes) (identifier_key : String) :
    Option String :=
  assocGet s._identifier_pairs identifier_key

def extattr_add_identifier_list (s : WithExtendedAttributes) (identifier_key : String)
    (identifier_list : List String) : WithExtendedAttributes :=
  { s with _identifier_lists := assocSet s._identifier_lists identifier_key identifier_list }

def extattr_get_identifier_list (s : WithExtendedAttributes) (identifier_key : String) :
    List String :=
  (assocGet s._identifier_lists identifier_key).getD []

/-- extattr_add_string_literal: wraps the value in double quotes unless
quotes=False. -/
def extattr_add_string_literal (s : WithExtendedAttributes) (identifier : String)
    (string_literal : String) (quotes : Bool) : WithExtendedAttributes :=
  let stored := if quotes then "\"" ++ string_literal ++ "\"" else string_literal
  { s with _string_literals := assocSet s._string_literals identifier stored }

/-- WithExtendedAttributes.extattr_get_string_literal: the source body is
`self._string_literals.get(identifier)` with no return statement, so the
Python function always returns None, regardless of the store's contents. -/
def extattr_get_string_literal (_s : WithExtendedAttributes) (_identifier : String) :
    Option String :=
  none

def extattr_add_string_literal_list (s : WithExtendedAttributes) (identifier : String)
    (string_literal_list : List String) : WithExtendedAttributes :=
  { s with _string_literal_lists :=
      assocSet s._string_literal_lists identifier string_literal_list }

def extattr_get_string_literal_list (s : WithExtendedAttributes) (identifier : String) :
    List String :=
  (assocGet s._string_literal_lists identifier).getD []

/-- C4: the identifier-flag, identifier-pair, identifier-list,
positional-argument and string-literal-list buckets round-trip add/get and
yield empty defaults for absent keys — but the string-literal and
named-argument getters discard the looked-up value and return None even
immediately after the corresponding add, contradicting the claim. -/
theorem extattr_getters_roundtrip_and_defect :
    extattr_has_identifier (extattr_add_identifier emptyExtAttrs "Replaceable") "Replaceable"
        = true
      ∧ extattr_has_identifier emptyExtAttrs "Replaceable" = false
      ∧ extattr_get_identifier_value (extattr_add_identifier_pair emptyExtAttrs
          "PutForwards" "x") "PutForwards" = some "x"
      ∧ extattr_get_identifier_value emptyExtAttrs "PutForwards" = none
      ∧ extattr_get_identifier_list (extattr_add_identifier_list emptyExtAttrs
          "Exposed" ["Window", "Worker"]) "Exposed" = ["Window", "Worker"]
      ∧ extattr_get_identifier_list emptyExtAttrs "Exposed" = []
      ∧ extattr_get_arguments (extattr_add_arguments emptyExtAttrs "Constructor"
          [⟨"x", .base "long", false, false, none⟩]) "Constructor"
          = [⟨"x", .base "long", false, false, none⟩]
      ∧ extattr_get_arguments emptyExtAttrs "Constructor" = []
      ∧ extattr_get_string_literal_list (extattr_add_string_literal_list emptyExtAttrs
          "Legacy" ["\"a\"", "\"b\""]) "Legacy" = ["\"a\"", "\"b\""]
      ∧ extattr_get_string_literal_list emptyExtAttrs "Legacy" = []
      ∧ extattr_get_string_literal (extattr_add_string_literal emptyExtAttrs
          "LegacyFactory" "X" true) "LegacyFactory" = none
      ∧ (assocGet (extattr_add_string_literal emptyExtAttrs "LegacyFactory" "X"
          true)._string_literals "LegacyFactory" = some "\"X\"")
      ∧ extattr_get_named_arguments (extattr_add_named_arguments emptyExtAttrs
          "NamedConstructor" "Image" [⟨"w", .base "long", false, false, none⟩])
          "NamedConstructor" = none
      ∧ (assocGet (extattr_add_named_arguments emptyExtAttrs "NamedConstructor" "Image"
          [⟨"w", .base "long", false, false, none⟩])._named_arguments "NamedConstructor"
          = some ("Image", [⟨"w", .base "long", false, false, none⟩])) :=
  ⟨rfl, rfl, rfl, rfl, rfl, rfl, rfl, rfl, rfl, rfl, rfl, by decide, rfl, rfl⟩

/-! ## Member entities and containers (idl_definitions.py)

Object identity is tracked by an `objId : Nat` field: Python's `copy`
allocates a new object, modelled by passing the fresh identity `fresh` to
the embedded copy; owner back-references hold the owning container's id.
Entity extended-attribute stores are omitted from the records (no claim
below depends on a member's attached extended attributes; `__copy__`
transfers them verbatim). -/

/-- The owner argument of WithOwner.set_owner: the candidate container's
identity and its is_partial flag. -/
structure OwnerRef where
  id : Nat
  partialFlag : Bool

/-- WithOwner.set_owner: `if not owner or owner.is_partial: return` — a
missing owner or a partial container leaves the current owner untouched
(so passing None can never clear an owner). -/
def setOwnerOpt (current : Option Nat) (owner : Option OwnerRef) : Option Nat :=
  match owner with
  | none => current
  | some o => if o.partialFlag then current else some o.id

/-- Python `d.setdefault(k, []).append(v)`. -/
def assocAppend {α : Type} (l : List (String × List α)) (k : String) (v : α) :
    List (String × List α) :=
  if (assocGet l k).isSome then
    l.map (fun kv => if kv.1 == k then (kv.1, kv.2 ++ [v]) else kv)
  else l ++ [(k, [v])]

/-- IdlAttribute: the fields of __init__ (is_event_handler is derived from
the type name) plus identity and owner. -/
structure IdlAttribute where
  objId : Nat
  name : String
  idl_type : IdlTypeBase
  is_readonly : Bool
  is_static : Bool
  is_stringifier : Bool
  is_inherit : Bool
  owner : Option Nat

/-- IdlAttribute.is_event_handler, set in __init__ (and re-derived by
__copy__) from the type's canonical name. -/
def IdlAttribute.is_event_handler (a : IdlAttribute) : Bool :=
  a.idl_type.name == "EventHandler"

/-- IdlAttribute.__copy__: a fresh object with the same payload; the
copy's owner starts as None (WithOwner.__init__). -/
def copyAttribute (fresh : Nat) (a : IdlAttribute) : IdlAttribute :=
  { a with objId := fresh, owner := none }

/-- IdlAttribute.same_as: same type name and same attribute name. -/
def same_as (a b : IdlAttribute) : Bool :=
  a.idl_type.name == b.idl_type.name && a.name == b.name

/-- IdlAttribute.__eq__: same_as plus equal owners (Python compares the
owner objects by identity). -/
def attrEq (a b : IdlAttribute) : Bool :=
  same_as a b && a.owner == b.owner

/-- The WithAttributes mixin state plus the holder's identity and
is_partial flag (both consulted by set_owner). -/
structure WithAttributes where
  id : Nat
  partialFlag : Bool
  _attributes : List IdlAttribute
  _attributes_dict : List (String × IdlAttribute)
  _attributes_typedict : List (String × List IdlAttribute)
  mutable_attributes : List IdlAttribute
  readonly_attributes : List IdlAttribute

/-- WithAttributes.add_attribute: a duplicate name is a no-op returning
none; otherwise a private copy (identity `fresh`) receives the owner
assignment (suppressed for a partial container) and is appended to the
ordered list, the name index, the type index and the read-only/mutable
partition (event-handler-typed attributes enter neither partition list
when not read-only). The caller's attribute is never mutated: the copy is
made before the owner assignment. -/
def add_attribute (c : WithAttributes) (attr : IdlAttribute) (fresh : Nat) :
    WithAttributes × Option IdlAttribute :=
  if (assocGet c._attributes_dict attr.name).isSome then (c, none)
  else
    let a0 := copyAttribute fresh attr
    let a := { a0 with owner := setOwnerOpt a0.owner (some ⟨c.id, c.partialFlag⟩) }
    ({ c with
        _attributes := c._attributes ++ [a],
        _attributes_dict := assocSet c._attributes_dict a.name a,
        _attributes_typedict := assocAppend c._attributes_typedict a.idl_type.name a,
        readonly_attributes :=
          if a.is_readonly then c.readonly_attributes ++ [a] else c.readonly_attributes,
        mutable_attributes :=
          if !a.is_readonly && !a.is_event_handler then c.mutable_attributes ++ [a]
          else c.mutable_attributes },
     some a)

/-- `self._attributes_typedict[key].remove(x)`: drop the first element of
the keyed list that compares equal (IdlAttribute.__eq__) to x. -/
def assocRemoveFromList (l : List (String × List IdlAttribute)) (k : String)
    (target : IdlAttribute) : List (String × List IdlAttribute) :=
  l.map (fun kv => if kv.1 == k then (kv.1, kv.2.eraseP (fun y => attrEq y target)) else kv)

/-- WithAttributes.remove_attribute (argument: an attribute object or a
name): an absent name is a no-op; otherwise the attribute held under the
name is removed from the ordered list, the name index, the type index and
its partition list (Python list.remove drops the first __eq__ match; in
this flow the element is present, so the absent-element ValueError never
arises), and set_owner(None) is invoked on it — which the owner guard
turns into a no-op, so the removed attribute keeps its previous owner.
Returns the removed attribute. -/
def remove_attribute (c : WithAttributes) (arg : Sum String IdlAttribute) :
    WithAttributes × Option IdlAttribute :=
  let attr_name := match arg with | .inl s => s | .inr a => a.name
  match assocGet c._attributes_dict attr_name with
  | none => (c, none)
  | some found =>
      let c' := { c with
        _attributes := c._attributes.eraseP (fun y => attrEq y found),
        _attributes_dict := c._attributes_dict.eraseP (fun kv => kv.1 == attr_name),
        _attributes_typedict :=
          assocRemoveFromList c._attributes_typedict found.idl_type.name found,
        readonly_attributes :=
          if found.is_readonly then
            c.readonly_attributes.eraseP (fun y => attrEq y found)
          else c.readonly_attributes,
        mutable_attributes :=
          if !found.is_readonly && !found.is_event_handler then
            c.mutable_attributes.eraseP (fun y => attrEq y found)
          else c.mutable_attributes }
      let removed := { found with owner := setOwnerOpt found.owner none }
      (c', some removed)

/-- IdlOperation: the __init__ fields (op_name is the private __name,
possibly empty) plus identity and owner. -/
structure IdlOperation where
  objId : Nat
  op_name : String
  idl_type : IdlTypeBase
  arguments : List IdlArgument
  is_constructor : Bool
  is_static : Bool
  is_getter : Bool
  is_setter : Bool
  is_deleter : Bool
  is_stringifier : Bool
  is_legacycaller : Bool
  is_async : Bool
  owner : Option Nat

/-- The IdlOperation.name property: the stored name when non-empty (Python
truthiness), else a placeholder for special operations, else the source
raises `Invalid operation`. -/
def opName (op : IdlOperation) : Except String String :=
  if op.op_name ≠ "" then .ok op.op_name
  else if op.is_getter then .ok "(getter)"
  else if op.is_setter then .ok "(setter)"
  else if op.is_deleter then .ok "(deleter)"
  else if op.is_stringifier then .ok "(stringifier)"
  else if op.is_legacycaller then .ok "(legacycaller)"
  else .error "Invalid operation"

/-- `a != b` on type values, as dispatched by Python for
`self.idl_type != other.idl_type` in IdlOperation.__eq__: IdlType and
IdlNullableType override __ne__ with an isinstance guard that returns
False on a class mismatch; IdlRecordType.__ne__ reads other.key_type and
so raises AttributeError on a non-record operand; every other variant
falls back to `not (a == b)`. -/
def pyNe : IdlTypeBase → IdlTypeBase → Except String Bool
  | .base b1, .base b2 => .ok (b1 != b2)
  | .base _, _ => .ok false
  | .nullable a, .nullable b => .ok (!(pyEq a b))
  | .nullable _, _ => .ok false
  | .record k1 v1, .record k2 v2 => .ok (!(pyEq k1 k2 && pyEq v1 v2))
  | .record _ _, _ => .error "AttributeError: key_type"
  | a, b => .ok (!(pyEq a b))

/-- IdlArgument.__eq__: same type name and same argument name. -/
def argEq (a b : IdlArgument) : Bool :=
  a.idl_type.name == b.idl_type.name && a.name == b.name

/-- IdlOperation.has_same_arguments: equal lengths and positionally equal
arguments. -/
def hasSameArguments (xs ys : List IdlArgument) : Bool :=
  xs.length == ys.length && (List.zip xs ys).all (fun p => argEq p.1 p.2)

/-- IdlOperation.__eq__: name, owner, return type (compared with `!=`,
which can raise for record types), and positional arguments. -/
def opEq (a b : IdlOperation) : Except String Bool :=
  match opName a, opName b with
  | .error e, _ => .error e
  | _, .error e => .error e
  | .ok na, .ok nb =>
      if na != nb then .ok false
      else if a.owner != b.owner then .ok false
      else match pyNe a.idl_type b.idl_type with
        | .error e => .error e
        | .ok true => .ok false
        | .ok false => .ok (hasSameArguments a.arguments b.arguments)

/-- The WithOperations mixin state plus the holder's identity and
is_partial flag. -/
structure WithOperations where
  id : Nat
  partialFlag : Bool
  _operations : List IdlOperation
  _operations_dict : List (String × List IdlOperation)
  _disabled_operations : List IdlOperation

/-- `operation in self._operations` of has_operation (the
IdlOperation-typed branch): any element comparing __eq__-equal. -/
def hasOperationObj (c : WithOperations) (op : IdlOperation) : Except String Bool :=
  List.anyM (fun o => opEq op o) c._operations

/-- IdlOperation.__copy__: a fresh object built from the name property (so
a nameless special operation's placeholder becomes the copy's stored
name), the same type and flags, per-argument copies (payload-identical),
and an owner starting as None. -/
def copyOperation (fresh : Nat) (op : IdlOperation) : Except String IdlOperation :=
  match opName op with
  | .error e => .error e
  | .ok n => .ok { op with objId := fresh, op_name := n, owner := none }

/-- WithOperations.add_operation: copy the caller's operation, assign the
owner on the copy (suppressed for a partial container), then: an
__eq__-equal operation already present makes the add a no-op returning
none; getter/setter/deleter specials are dropped (returning none) after
the owner assignment; otherwise the copy is appended and indexed under its
name and returned. The caller's operation is never mutated. -/
def add_operation (c : WithOperations) (operation : IdlOperation) (fresh : Nat) :
    Except String (WithOperations × Option IdlOperation) :=
  match copyOperation fresh operation with
  | .error e => .error e
  | .ok op0 =>
    let op := { op0 with owner := setOwnerOpt op0.owner (some ⟨c.id, c.partialFlag⟩) }
    match hasOperationObj c op with
    | .error e => .error e
    | .ok true => .ok (c, none)
    | .ok false =>
        if op.is_setter || op.is_getter || op.is_deleter then .ok (c, none)
        else match opName op with
          | .error e => .error e
          | .ok n =>
              .ok ({ c with _operations := c._operations ++ [op],
                            _operations_dict := assocAppend c._operations_dict n op },
                   some op)

/-- IdlConstant: name, type, value, identity, owner. -/
structure IdlConstant where
  objId : Nat
  name : String
  idl_type : IdlTypeBase
  value : String
  owner : Option Nat

/-- The WithConstants mixin state plus the holder's identity and
is_partial flag. -/
structure WithConstants where
  id : Nat
  partialFlag : Bool
  constants : List IdlConstant
  _constants_dict : List (String × IdlConstant)

/-- WithConstants.add_constant: a duplicate name is a no-op; otherwise the
caller's object ITSELF (same identity — no copy is taken, unlike the
operation/attribute/member adds) is appended, indexed, and given an owner
(suppressed for a partial container). The second component returned is the
caller's object as it stands after the call: because the stored object
aliases it, the owner assignment is visible through the caller's
reference. -/
def add_constant (c : WithConstants) (constant : IdlConstant) :
    WithConstants × IdlConstant :=
  if (assocGet c._constants_dict constant.name).isSome then (c, constant)
  else
    let stored := { constant with
      owner := setOwnerOpt constant.owner (some ⟨c.id, c.partialFlag⟩) }
    ({ c with constants := c.constants ++ [stored],
              _constants_dict := assocSet c._constants_dict stored.name stored },
     stored)

/-- IdlDictionaryMember: the __init__ fields plus identity and owner. -/
structure IdlDictionaryMember where
  objId : Nat
  name : String
  idl_type : IdlTypeBase
  is_required : Bool
  default_value : Option String
  owner : Option Nat

/-- IdlDictionaryMember.__copy__: fresh object, same payload, owner None. -/
def copyDictionaryMember (fresh : Nat) (m : IdlDictionaryMember) : IdlDictionaryMember :=
  { m with objId := fresh, owner := none }

/-- The member-holding state of IdlDictionary plus its identity and
is_partial flag. -/
structure IdlDictionaryMembers where
  id : Nat
  partialFlag : Bool
  members : List IdlDictionaryMember
  members_dict : List (String × IdlDictionaryMember)
  members_typedict : List (String × List IdlDictionaryMember)

/-- IdlDictionary.add_member: a duplicate name is a no-op (none returned);
otherwise a private copy is appended to the member list, the name index
and the type index, and then receives the owner assignment (last in the
source; visible in the stored object, which this embedding reflects by
assigning before insertion) — suppressed for a partial dictionary. The
caller's member is never mutated. The stored copy is returned for
inspection (the source returns None). -/
def add_member (d : IdlDictionaryMembers) (member : IdlDictionaryMember) (fresh : Nat) :
    IdlDictionaryMembers × Option IdlDictionaryMember :=
  if (assocGet d.members_dict member.name).isSome then (d, none)
  else
    let m0 := copyDictionaryMember fresh member
    let new_member := { m0 with owner := setOwnerOpt m0.owner (some ⟨d.id, d.partialFlag⟩) }
    ({ d with members := d.members ++ [new_member],
              members_dict := assocSet d.members_dict new_member.name new_member,
              members_typedict :=
                assocAppend d.members_typedict new_member.idl_type.name new_member },
     some new_member)

/-- C5 counterexample: WithConstants.add_constant stores the caller's
instance itself — the stored constant keeps the caller's identity 7
instead of a fresh one — and mutates the caller's aliased object: its
owner changes from None to the container. -/
theorem add_constant_aliases_caller :
    ((add_constant ⟨0, false, [], []⟩ ⟨7, "K", .base "long", "1", none⟩).2.objId = 7)
      ∧ ((add_constant ⟨0, false, [], []⟩ ⟨7, "K", .base "long", "1", none⟩).2.owner = some 0)
      ∧ ((add_constant ⟨0, false, [], []⟩ ⟨7, "K", .base "long", "1", none⟩).1.constants
          = [(add_constant ⟨0, false, [], []⟩ ⟨7, "K", .base "long", "1", none⟩).2]) :=
  ⟨rfl, rfl, rfl⟩

/-- C5 (amended): operations, attributes and dictionary members are
inserted as private copies — the stored object carries the fresh identity
rather than the caller's, and the caller's instance is untouched (those
adds copy before any owner assignment) — but constants are the exception:
add_constant stores the caller's instance itself (same identity), and for
a non-partial container the caller's aliased instance acquires the
container as owner. -/
theorem insertion_copy_semantics :
    (∀ (c : WithAttributes) (a : IdlAttribute) (fresh : Nat) (c' : WithAttributes)
        (stored : IdlAttribute), fresh ≠ a.objId →
          add_attribute c a fresh = (c', some stored) →
            stored.objId = fresh ∧ stored.objId ≠ a.objId)
      ∧ (∀ (c : WithOperations) (op : IdlOperation) (fresh : Nat) (c' : WithOperations)
          (stored : IdlOperation), fresh ≠ op.objId →
            add_operation c op fresh = .ok (c', some stored) →
              stored.objId = fresh ∧ stored.objId ≠ op.objId)
      ∧ (∀ (d : IdlDictionaryMembers) (m : IdlDictionaryMember) (fresh : Nat)
          (d' : IdlDictionaryMembers) (stored : IdlDictionaryMember), fresh ≠ m.objId →
            add_member d m fresh = (d', some stored) →
              stored.objId = fresh ∧ stored.objId ≠ m.objId)
      ∧ (∀ (c : WithConstants) (k : IdlConstant),
          (assocGet c._constants_dict k.name).isNone = true →
            ((add_constant c k).2.objId = k.objId
              ∧ (c.partialFlag = false → (add_constant c k).2.owner = some c.id))) := by
  refine ⟨?_, ?_, ?_, ?_⟩
  · intro c a fresh c' stored hfresh heq
    by_cases hdup : (assocGet c._attributes_dict a.name).isSome
    · simp [add_attribute, hdup] at heq
    · simp only [add_attribute, hdup, if_neg, Bool.false_eq_true, if_false,
        Prod.mk.injEq, Option.some.injEq] at heq
      obtain ⟨-, rfl⟩ := heq
      exact ⟨rfl, hfresh⟩
  · intro c op fresh c' stored hfresh heq
    rw [add_operation] at heq
    cases hcopy : copyOperation fresh op with
    | error e => rw [hcopy] at heq; simp at heq
    | ok op0 =>
      rw [hcopy] at heq
      dsimp only at heq
      have hid : op0.objId = fresh := by
        rw [copyOperation] at hcopy
        cases hname : opName op with
        | error e => rw [hname] at hcopy; simp at hcopy
        | ok n => rw [hname] at hcopy; cases hcopy; rfl
      cases hdup : hasOperationObj c { op0 with
          owner := setOwnerOpt op0.owner (some ⟨c.id, c.partialFlag⟩) } with
      | error e => rw [hdup] at heq; simp at heq
      | ok b =>
        rw [hdup] at heq
        cases b with
        | true => simp at heq
        | false =>
          dsimp only at heq
          split at heq
          · simp at heq
          · split at heq
            · simp at heq
            · simp only [Except.ok.injEq, Prod.mk.injEq, Option.some.injEq] at heq
              obtain ⟨-, rfl⟩ := heq
              refine ⟨hid, ?_⟩
              rw [hid]
              exact hfresh
  · intro d m fresh d' stored hfresh heq
    by_cases hdup : (assocGet d.members_dict m.name).isSome
    · simp [add_member, hdup] at heq
    · simp only [add_member, hdup, Bool.false_eq_true, if_false,
        Prod.mk.injEq, Option.some.injEq] at heq
      obtain ⟨-, rfl⟩ := heq
      exact ⟨rfl, hfresh⟩
  · intro c k habsent
    have hdup : (assocGet c._constants_dict k.name).isSome = false := by
      simp only [Option.isNone_iff_eq_none] at habsent
      simp [habsent]
    constructor
    · simp [add_constant, hdup]
    · intro hpart
      simp [add_constant, hdup, setOwnerOpt, hpart]

theorem insertion_copy_semantics_witness :
    (9 : Nat) ≠ 7
      ∧ add_attribute ⟨0, false, [], [], [], [], []⟩
          ⟨7, "x", .base "long", false, false, false, false, none⟩ 9
        = (⟨0, false, [⟨9, "x", .base "long", false, false, false, false, some 0⟩],
            [("x", ⟨9, "x", .base "long", false, false, false, false, some 0⟩)],
            [("Long", [⟨9, "x", .base "long", false, false, false, false, some 0⟩])],
            [⟨9, "x", .base "long", false, false, false, false, some 0⟩], []⟩,
           some ⟨9, "x", .base "long", false, false, false, false, some 0⟩)
      ∧ ((9 : Nat) = 9 ∧ (9 : Nat) ≠ 7)
      ∧ add_operation ⟨0, false, [], [], []⟩
          ⟨7, "move", .base "void", [], false, false, false, false, false, false, false,
            false, none⟩ 9
        = .ok (⟨0, false,
            [⟨9, "move", .base "void", [], false, false, false, false, false, false,
              false, false, some 0⟩],
            [("move", [⟨9, "move", .base "void", [], false, false, false, false, false,
              false, false, false, some 0⟩])], []⟩,
           some ⟨9, "move", .base "void", [], false, false, false, false, false, false,
             false, false, some 0⟩)
      ∧ add_member ⟨0, false, [], [], []⟩ ⟨7, "m", .base "long", false, none, none⟩ 9
        = (⟨0, false, [⟨9, "m", .base "long", false, none, some 0⟩],
            [("m", ⟨9, "m", .base "long", false, none, some 0⟩)],
            [("Long", [⟨9, "m", .base "long", false, none, some 0⟩])]⟩,
           some ⟨9, "m", .base "long", false, none, some 0⟩)
      ∧ (assocGet ([] : List (String × IdlConstant)) "K").isNone = true
      ∧ ((add_constant ⟨0, false, [], []⟩ ⟨7, "K", .base "long", "1", none⟩).2.objId = 7
          ∧ (false = false →
              (add_constant ⟨0, false, [], []⟩ ⟨7, "K", .base "long", "1", none⟩).2.owner
                = some 0)) :=
  ⟨by decide, rfl,
    insertion_copy_semantics.1 ⟨0, false, [], [], [], [], []⟩
      ⟨7, "x", .base "long", false, false, false, false, none⟩ 9 _ _ (by decide) rfl,
    rfl,
    rfl,
    rfl,
    insertion_copy_semantics.2.2.2 ⟨0, false, [], []⟩
      ⟨7, "K", .base "long", "1", none⟩ rfl⟩

/-- C6: after adding attribute "x" (type long, not read-only) to a
non-partial container with id 0, remove_attribute — called with the name
or with the attribute object — empties the ordered list, the name index,
the type-index entry and the mutable partition, and removing an absent
name is a no-op; but the removed attribute's owner is NOT cleared: the
source's set_owner(None) is a no-op because of the falsy-owner guard, so
the removed attribute still reports owner 0 instead of None. -/
theorem remove_attribute_reverses_indices_but_owner_not_cleared :
    add_attribute ⟨0, false, [], [], [], [], []⟩
        ⟨7, "x", .base "long", false, false, false, false, none⟩ 5
      = (⟨0, false, [⟨5, "x", .base "long", false, false, false, false, some 0⟩],
          [("x", ⟨5, "x", .base "long", false, false, false, false, some 0⟩)],
          [("Long", [⟨5, "x", .base "long", false, false, false, false, some 0⟩])],
          [⟨5, "x", .base "long", false, false, false, false, some 0⟩], []⟩,
         some ⟨5, "x", .base "long", false, false, false, false, some 0⟩)
      ∧ remove_attribute ⟨0, false,
          [⟨5, "x", .base "long", false, false, false, false, some 0⟩],
          [("x", ⟨5, "x", .base "long", false, false, false, false, some 0⟩)],
          [("Long", [⟨5, "x", .base "long", false, false, false, false, some 0⟩])],
          [⟨5, "x", .base "long", false, false, false, false, some 0⟩], []⟩ (.inl "x")
        = (⟨0, false, [], [], [("Long", [])], [], []⟩,
           some ⟨5, "x", .base "long", false, false, false, false, some 0⟩)
      ∧ remove_attribute ⟨0, false,
          [⟨5, "x", .base "long", false, false, false, false, some 0⟩],
          [("x", ⟨5, "x", .base "long", false, false, false, false, some 0⟩)],
          [("Long", [⟨5, "x", .base "long", false, false, false, false, some 0⟩])],
          [⟨5, "x", .base "long", false, false, false, false, some 0⟩], []⟩
          (.inr ⟨5, "x", .base "long", false, false, false, false, some 0⟩)
        = (⟨0, false, [], [], [("Long", [])], [], []⟩,
           some ⟨5, "x", .base "long", false, false, false, false, some 0⟩)
      ∧ (⟨5, "x", .base "long", false, false, false, false, some 0⟩ : IdlAttribute).owner
          = some 0
      ∧ remove_attribute ⟨0, false, [], [], [], [], []⟩ (.inl "x")
          = (⟨0, false, [], [], [], [], []⟩, none) :=
  ⟨rfl, rfl, rfl, rfl, rfl⟩

/-- C7: a partial container never becomes the recorded owner of an
inserted member — a stored attribute or operation copy keeps the owner
None it was created with, and a stored constant (aliased to the caller's
object) keeps exactly the owner it had before the call. -/
theorem partial_container_never_owns_members :
    (∀ (c : WithAttributes) (a : IdlAttribute) (fresh : Nat) (c' : WithAttributes)
        (stored : IdlAttribute), c.partialFlag = true →
          add_attribute c a fresh = (c', some stored) → stored.owner = none)
      ∧ (∀ (c : WithOperations) (op : IdlOperation) (fresh : Nat) (c' : WithOperations)
          (stored : IdlOperation), c.partialFlag = true →
            add_operation c op fresh = .ok (c', some stored) → stored.owner = none)
      ∧ (∀ (c : WithConstants) (k : IdlConstant), c.partialFlag = true →
          (add_constant c k).2.owner = k.owner) := by
  refine ⟨?_, ?_, ?_⟩
  · intro c a fresh c' stored hpart heq
    by_cases hdup : (assocGet c._attributes_dict a.name).isSome
    · simp [add_attribute, hdup] at heq
    · simp only [add_attribute, hdup, Bool.false_eq_true, if_false,
        Prod.mk.injEq, Option.some.injEq] at heq
      obtain ⟨-, rfl⟩ := heq
      simp [copyAttribute, setOwnerOpt, hpart]
  · intro c op fresh c' stored hpart heq
    rw [add_operation] at heq
    cases hcopy : copyOperation fresh op with
    | error e => rw [hcopy] at heq; simp at heq
    | ok op0 =>
      rw [hcopy] at heq
      dsimp only at heq
      have hown : op0.owner = none := by
        rw [copyOperation] at hcopy
        cases hname : opName op with
        | error e => rw [hname] at hcopy; simp at hcopy
        | ok n => rw [hname] at hcopy; cases hcopy; rfl
      cases hdup : hasOperationObj c { op0 with
          owner := setOwnerOpt op0.owner (some ⟨c.id, c.partialFlag⟩) } with
      | error e => rw [hdup] at heq; simp at heq
      | ok b =>
        rw [hdup] at heq
        cases b with
        | true => simp at heq
        | false =>
          dsimp only at heq
          split at heq
          · simp at heq
          · split at heq
            · simp at heq
            · simp only [Except.ok.injEq, Prod.mk.injEq, Option.some.injEq] at heq
              obtain ⟨-, rfl⟩ := heq
              simp [setOwnerOpt, hpart, hown]
  · intro c k hpart
    by_cases hdup : (assocGet c._constants_dict k.name).isSome
    · simp [add_constant, hdup]
    · simp [add_constant, hdup, setOwnerOpt, hpart]

theorem partial_container_never_owns_members_witness :
    (true : Bool) = true
      ∧ add_attribute ⟨3, true, [], [], [], [], []⟩
          ⟨7, "x", .base "long", false, false, false, false, none⟩ 5
        = (⟨3, true, [⟨5, "x", .base "long", false, false, false, false, none⟩],
            [("x", ⟨5, "x", .base "long", false, false, false, false, none⟩)],
            [("Long", [⟨5, "x", .base "long", false, false, false, false, none⟩])],
            [⟨5, "x", .base "long", false, false, false, false, none⟩], []⟩,
           some ⟨5, "x", .base "long", false, false, false, false, none⟩)
      ∧ (⟨5, "x", .base "long", false, false, false, false, none⟩ : IdlAttribute).owner
          = none
      ∧ add_operation ⟨3, true, [], [], []⟩
          ⟨7, "move", .base "void", [], false, false, false, false, false, false, false,
            false, none⟩ 5
        = .ok (⟨3, true,
            [⟨5, "move", .base "void", [], false, false, false, false, false, false,
              false, false, none⟩],
            [("move", [⟨5, "move", .base "void", [], false, false, false, false, false,
              false, false, false, none⟩])], []⟩,
           some ⟨5, "move", .base "void", [], false, false, false, false, false, false,
             false, false, none⟩)
      ∧ (add_constant ⟨3, true, [], []⟩ ⟨7, "K", .base "long", "1", some 42⟩).2.owner
          = some 42 :=
  ⟨rfl,
    rfl,
    partial_container_never_owns_members.1 ⟨3, true, [], [], [], [], []⟩
      ⟨7, "x", .base "long", false, false, false, false, none⟩ 5 _ _ rfl rfl,
    rfl,
    partial_container_never_owns_members.2.2 ⟨3, true, [], []⟩
      ⟨7, "K", .base "long", "1", some 42⟩ rfl⟩

/-! ## Interface parent chains (IdlInterface.is_subclass_of) -/

/-- An IdlInterface as seen by is_subclass_of: its name and its parent
reference — absent (None), an unresolved bare name string, or a resolved
interface object. Python object identity for the interface comparison is
modelled by structural equality of this encoding. -/
inductive IdlInterfaceNode where
  | noParent (name : String)
  | strParent (name parent_name : String)
  | objParent (name : String) (parent : IdlInterfaceNode)
deriving DecidableEq

def IdlInterfaceNode.name : IdlInterfaceNode → String
  | .noParent n => n
  | .strParent n _ => n
  | .objParent n _ => n

/-- `other == parent_info` in is_subclass_of: compared by name when
`other` is a string, by (identity) equality when it is an interface. -/
def matchesOther (other : Sum String IdlInterfaceNode) (i : IdlInterfaceNode) : Bool :=
  match other with
  | .inl s => s == i.name
  | .inr o => o == i

/-- One `while i:` iteration at a resolved ancestor i: compare i against
`other`, then move to i's own parent reference — the loop exits with False
at a falsy reference (None or the empty string), and a non-empty bare-name
reference hits `assert isinstance(i, IdlInterface)` and raises. -/
def walkAncestor (other : Sum String IdlInterfaceNode) :
    IdlInterfaceNode → Except String Bool
  | i@(.noParent _) =>
      if matchesOther other i then .ok true else .ok false
  | i@(.strParent _ p) =>
      if matchesOther other i then .ok true
      else if p = "" then .ok false
      else .error "AssertionError: parent is not an IdlInterface"
  | i@(.objParent _ p) =>
      if matchesOther other i then .ok true else walkAncestor other p

/-- IdlInterface.is_subclass_of: walk the parent chain starting from
self.parent (self itself is not compared). -/
def is_subclass_of (self : IdlInterfaceNode) (other : Sum String IdlInterfaceNode) :
    Except String Bool :=
  match self with
  | .noParent _ => .ok false
  | .strParent _ p =>
      if p = "" then .ok false
      else .error "AssertionError: parent is not an IdlInterface"
  | .objParent _ p => walkAncestor other p

/-- The resolved ancestors of an interface: its parent object, that
parent's parent object, and so on. -/
def resolvedAncestors : IdlInterfaceNode → List IdlInterfaceNode
  | .noParent _ => []
  | .strParent _ _ => []
  | .objParent _ p => p :: resolvedAncestors p

/-- Every parent reference along the chain is a resolved object or absent. -/
def parentsResolved : IdlInterfaceNode → Bool
  | .noParent _ => true
  | .strParent _ _ => false
  | .objParent _ p => parentsResolved p

theorem walkAncestor_characterization (other : Sum String IdlInterfaceNode) :
    ∀ i : IdlInterfaceNode, parentsResolved i = true →
      walkAncestor other i = .ok (matchesOther other i
        || (resolvedAncestors i).any (matchesOther other))
  | .noParent n, _ => by
      by_cases h : matchesOther other (.noParent n) <;>
        simp [walkAncestor, resolvedAncestors, h]
  | .strParent n p, hres => by simp [parentsResolved] at hres
  | .objParent n p, hres => by
      have hp : parentsResolved p = true := by simpa [parentsResolved] using hres
      have ih := walkAncestor_characterization other p hp
      by_cases h : matchesOther other (.objParent n p) <;>
        simp [walkAncestor, resolvedAncestors, h, ih, List.any_eq]

/-- C8 counterexample: an interface C whose parent reference is the
unresolved bare name "A" — the call C.is_subclass_of(A) raises an
assertion error instead of returning false. -/
theorem is_subclass_of_unresolved_parent_raises :
    is_subclass_of (.strParent "C" "A") (.inr (.noParent "A"))
        = .error "AssertionError: parent is not an IdlInterface"
      ∧ is_subclass_of (.strParent "C" "A") (.inr (.noParent "A")) ≠ .ok false :=
  ⟨rfl, fun h => Except.noConfusion h⟩

/-- C8 (amended): with every parent reference resolved, is_subclass_of
returns ok(true) exactly when some ancestor matches `other` — by name for
a string, by identity for an interface — so in the A/B/C chain
C.is_subclass_of(A) is true (also via the name "A") and
A.is_subclass_of(C) is false; but a non-empty unresolved bare-name parent
reference encountered during the walk raises an assertion error rather
than returning false. -/
theorem is_subclass_of_characterization :
    (∀ (self : IdlInterfaceNode) (other : Sum String IdlInterfaceNode),
        parentsResolved self = true →
          is_subclass_of self other
            = .ok ((resolvedAncestors self).any (matchesOther other)))
      ∧ is_subclass_of (.objParent "C" (.objParent "B" (.noParent "A")))
          (.inr (.noParent "A")) = .ok true
      ∧ is_subclass_of (.objParent "C" (.objParent "B" (.noParent "A"))) (.inl "A")
          = .ok true
      ∧ is_subclass_of (.noParent "A")
          (.inr (.objParent "C" (.objParent "B" (.noParent "A")))) = .ok false
      ∧ (∃ e, is_subclass_of (.objParent "C" (.strParent "B" "A")) (.inl "Z")
          = .error e) := by
  refine ⟨?_, rfl, rfl, rfl, ⟨_, rfl⟩⟩
  intro self other hres
  cases self with
  | noParent n => simp [is_subclass_of, resolvedAncestors]
  | strParent n p => simp [parentsResolved] at hres
  | objParent n p =>
      have hp : parentsResolved p = true := by simpa [parentsResolved] using hres
      rw [is_subclass_of, walkAncestor_characterization other p hp]
      simp [resolvedAncestors, List.any_eq]

theorem is_subclass_of_characterization_witness :
    parentsResolved (.objParent "C" (.objParent "B" (.noParent "A"))) = true
      ∧ is_subclass_of (.objParent "C" (.objParent "B" (.noParent "A")))
          (.inr (.noParent "A"))
        = .ok ((resolvedAncestors (.objParent "C" (.objParent "B" (.noParent "A")))).any
            (matchesOther (.inr (.noParent "A")))) :=
  ⟨by decide,
    is_subclass_of_characterization.1 (.objParent "C" (.objParent "B" (.noParent "A")))
      (.inr (.noParent "A")) (by decide)⟩

/-! ## Interface name/type coupling (IdlInterface.set_name) -/

/-- The name and nominal-type state of an IdlInterface. -/
structure IdlInterfaceState where
  name : String
  idl_type : IdlTypeBase

/-- The argument of set_name as Python sees it: a string, or a value of
any other runtime type. -/
inductive PyStrArg where
  | str (s : String)
  | nonStr

/-- IdlInterface.set_name: `if not name or not isinstance(name, str):
return` — the empty string (falsy) and every non-string argument are
complete no-ops; otherwise both the name and the nominal idl_type
(IdlType(name)) are updated together. -/
def interface_set_name (i : IdlInterfaceState) (arg : PyStrArg) : IdlInterfaceState :=
  match arg with
  | .nonStr => i
  | .str n => if n = "" then i else { name := n, idl_type := mkIdlType n false }

/-- The name/type fragment of IdlInterface.__init__: the IdlDefinition
base initializes name to the empty string, WithIdlType.__init__ sets
idl_type to IdlType(name), and then set_name(name) runs. -/
def interface_init (name : String) : IdlInterfaceState :=
  interface_set_name { name := "", idl_type := mkIdlType name false } (.str name)

/-- C10: idl_type equals the nominal type of the current name after
construction, and the coupling is preserved by set_name, which for a
non-empty string updates both fields together and otherwise (empty string
or non-string argument) is a complete no-op. -/
theorem interface_name_type_coupling :
    (∀ n, (interface_init n).idl_type = mkIdlType (interface_init n).name false)
      ∧ (∀ (i : IdlInterfaceState) (v : PyStrArg),
          i.idl_type = mkIdlType i.name false →
            (interface_set_name i v).idl_type
              = mkIdlType (interface_set_name i v).name false)
      ∧ (∀ i, interface_set_name i .nonStr = i)
      ∧ (∀ i, interface_set_name i (.str "") = i)
      ∧ (∀ i n, n ≠ "" → (interface_set_name i (.str n)).name = n
          ∧ (interface_set_name i (.str n)).idl_type = mkIdlType n false) := by
  refine ⟨?_, ?_, fun i => rfl, fun i => rfl, ?_⟩
  · intro n
    by_cases h : n = "" <;> simp [interface_init, interface_set_name, h]
  · intro i v hinv
    cases v with
    | nonStr => exact hinv
    | str n => by_cases h : n = "" <;> simp [interface_set_name, h, hinv]
  · intro i n h
    simp [interface_set_name, h]

theorem interface_name_type_coupling_witness :
    (⟨"A", mkIdlType "A" false⟩ : IdlInterfaceState).idl_type
        = mkIdlType (⟨"A", mkIdlType "A" false⟩ : IdlInterfaceState).name false
      ∧ (interface_set_name ⟨"A", mkIdlType "A" false⟩ (.str "B")).idl_type
          = mkIdlType (interface_set_name ⟨"A", mkIdlType "A" false⟩ (.str "B")).name false
      ∧ ("B" : String) ≠ ""
      ∧ ((interface_set_name ⟨"A", mkIdlType "A" false⟩ (.str "B")).name = "B"
          ∧ (interface_set_name ⟨"A", mkIdlType "A" false⟩ (.str "B")).idl_type
              = mkIdlType "B" false) :=
  ⟨rfl,
    interface_name_type_coupling.2.1 ⟨"A", mkIdlType "A" false⟩ (.str "B") rfl,
    by decide,
    interface_name_type_coupling.2.2.2.2 ⟨"A", mkIdlType "A" false⟩ "B" (by decide)⟩

end Idlark
